import Mathlib

/-!
Shallow embedding of the unused-component-detector core: POSIX path handling,
component-name derivation, pattern-based import extraction, dependency-graph
assembly and the deletion-safety checker, together with theorems about the
claimed properties of those functions.
-/

namespace UCD

/-- ASCII whitespace characters, the ASCII part of the JS whitespace class. -/
def wsChar (c : Char) : Bool :=
  c = ' ' || c = '\t' || c = '\n' || c = '\r' || c = '\x0b' || c = '\x0c'

/-- JS word-character class: ASCII letters, digits and underscore. -/
def wordChar (c : Char) : Bool := c.isAlphanum || c = '_'

/-- Does the second list start with the first list? -/
def listStartsWith : List Char → List Char → Bool
  | [], _ => true
  | _ :: _, [] => false
  | l :: ls, c :: cs => l = c && listStartsWith ls cs

/-- Substring occurrence test, the semantics of JS String.includes. -/
def subOcc : List Char → List Char → Bool
  | _, [] => true
  | [], _ :: _ => false
  | c :: cs, n :: ns => listStartsWith (n :: ns) (c :: cs) || subOcc cs (n :: ns)

/-- JS String.includes. -/
def jsIncludes (s sub : String) : Bool := subOcc s.data sub.data

/-- JS String.startsWith. -/
def startsW (s pre : String) : Bool := listStartsWith pre.data s.data

/-- JS String.endsWith. -/
def endsW (s suf : String) : Bool := listStartsWith suf.data.reverse s.data.reverse

/-- Drop the final n characters of a string. -/
def dropRightStr (s : String) (n : Nat) : String :=
  String.mk (s.data.take (s.data.length - n))

/-- Split a character list at every character satisfying the predicate. -/
def splitPredAux (p : Char → Bool) (acc : List Char) : List Char → List (List Char)
  | [] => [acc.reverse]
  | c :: cs =>
    if p c then acc.reverse :: splitPredAux p [] cs else splitPredAux p (c :: acc) cs

def splitPredC (p : Char → Bool) (cs : List Char) : List (List Char) := splitPredAux p [] cs

def splitSlash (cs : List Char) : List (List Char) := splitPredC (fun c => c = '/') cs

/-- Node path.resolve segment resolution for an absolute POSIX path:
drops empty and dot segments, pops a segment on a dot-dot segment. -/
def resolveSegs (p : String) : String :=
  let out := (splitSlash p.data).foldl (fun acc s =>
    if s = ([] : List Char) then acc
    else if s = ['.'] then acc
    else if s = ['.', '.'] then acc.dropLast
    else acc ++ [s]) ([] : List (List Char))
  String.mk ('/' :: List.intercalate ['/'] out)

def isAbsolute (p : String) : Bool := startsW p "/"

/-- Node path.resolve(base, p) in the POSIX model (the process working
directory, used by Node when both arguments are relative, is modelled as
the filesystem root). -/
def pathResolve (base p : String) : String :=
  if isAbsolute p then resolveSegs p
  else if isAbsolute base then resolveSegs (base ++ "/" ++ p)
  else resolveSegs ("/" ++ base ++ "/" ++ p)

/-- Node path.dirname (POSIX). -/
def dirname (p : String) : String :=
  let noTrail := (p.data.reverse.dropWhile (fun c => c = '/')).reverse
  if noTrail = [] then (if isAbsolute p then "/" else ".")
  else
    let afterBase := noTrail.reverse.dropWhile (fun c => c ≠ '/')
    if afterBase = [] then "."
    else
      let parent := (afterBase.dropWhile (fun c => c = '/')).reverse
      if parent = [] then "/" else String.mk parent

/-- Node path.basename (POSIX), one-argument form. -/
def basenameStr (p : String) : String :=
  let noTrail := p.data.reverse.dropWhile (fun c => c = '/')
  String.mk (noTrail.takeWhile (fun c => c ≠ '/')).reverse

/-- Node path.extname (POSIX). -/
def extname (p : String) : String :=
  let b := (basenameStr p).data
  if b = ['.'] || b = ['.', '.'] then ""
  else
    let revTail := b.reverse.takeWhile (fun c => c ≠ '.')
    if revTail.length = b.length then ""
    else if revTail.length + 1 = b.length then
      (if b.headD ' ' = '.' then "" else String.mk ('.' :: revTail.reverse))
    else String.mk ('.' :: revTail.reverse)

/-- Node path.basename(p, ext): the extension suffix is removed unless the
basename is exactly the extension. -/
def basenameExt (p ext : String) : String :=
  let b := basenameStr p
  if ext = "" then b
  else if b = ext then b
  else if endsW b ext then dropRightStr b ext.data.length
  else b

/-- The basename of a path with its extension removed (path.parse(p).name). -/
def nameNoExt (p : String) : String := basenameExt p (extname p)

/-- The analyzers' normalizePath: resolve against the project root when
relative, resolve dot segments, convert backslashes to forward slashes. -/
def normalizePath (projectRoot p : String) : String :=
  String.mk ((pathResolve projectRoot p).data.map (fun c => if c = '\\' then '/' else c))

/-- The replace of the source-extension suffix regex by the empty string:
strips one trailing source extension if present. -/
def stripSrcExt (p : String) : String :=
  if endsW p ".tsx" then dropRightStr p 4
  else if endsW p ".ts" then dropRightStr p 3
  else if endsW p ".jsx" then dropRightStr p 4
  else if endsW p ".js" then dropRightStr p 3
  else if endsW p ".mjs" then dropRightStr p 4
  else if endsW p ".cjs" then dropRightStr p 4
  else p

/-- JS charAt(0).toUpperCase() + slice(1).toLowerCase(). -/
def capFirst (s : String) : String :=
  match s.data with
  | [] => ""
  | c :: rest => String.mk (c.toUpper :: rest.map Char.toLower)

/-- JS split with a lookahead on an upper-case letter: split before each
capital, except at the very start. -/
def splitCapsAux (acc : List Char) : List Char → List (List Char)
  | [] => [acc.reverse]
  | c :: cs =>
    if (decide ('A' ≤ c) && decide (c ≤ 'Z')) && !acc.isEmpty then
      acc.reverse :: splitCapsAux [c] cs
    else splitCapsAux (c :: acc) cs

def splitCaps (s : String) : List String := (splitCapsAux [] s.data).map String.mk

/-- Shared PascalCase core: split on dash, underscore and whitespace, split
camel-case boundaries, drop empty tokens, capitalize each token, concatenate. -/
def pascalCore (s : String) : String :=
  let parts :=
    (((splitPredC (fun c => c = '-' || c = '_' || wsChar c) s.data).map String.mk).flatMap
      splitCaps).filter (fun q => q.data.length > 0)
  String.join (parts.map capFirst)

namespace Scanner

/-- The scanner toPascalCase: strips the extension and maps an index file to
the fixed sentinel name. -/
def toPascalCase (fileName : String) : String :=
  let nameWithoutExt := nameNoExt fileName
  if nameWithoutExt = "index" then "Index" else pascalCore nameWithoutExt

end Scanner

namespace Analyzer

/-- A raw extracted reference: specifier, dynamic flag and referencing file. -/
structure FileImport where
  importPath : String
  isDynamic : Bool
  sourceFile : String
deriving DecidableEq, Repr

/-- The dependency graph: component path to list of importing files, stored as
an insertion-ordered association list (JS object semantics). -/
abbrev Graph := List (String × List String)

/-- JS object property read. -/
def lookupG : Graph → String → Option (List String)
  | [], _ => none
  | (k, v) :: rest, p => if k = p then some v else lookupG rest p

/-- Association-list read for the content cache. -/
def lookupC : List (String × String) → String → Option String
  | [], _ => none
  | (k, v) :: rest, p => if k = p then some v else lookupC rest p

namespace Opt

/-- The optimized analyzer's pathsMatch: exact match after normalization,
match with source extensions stripped, or one path being the implicit-index
file of the directory named by the other path. -/
def pathsMatch (root p1 p2 : String) : Bool :=
  let n1 := normalizePath root p1
  let n2 := normalizePath root p2
  if n1 = n2 then true
  else if stripSrcExt n1 = stripSrcExt n2 then true
  else if (nameNoExt n1 = "index" ∧ dirname n1 = stripSrcExt n2)
       ∨ (nameNoExt n2 = "index" ∧ dirname n2 = stripSrcExt n1) then true
  else false

end Opt

namespace Basic

/-- The basic analyzer's pathsMatch: same three structural checks, then an
inode comparison of both files when they exist (hard links and symlinks are
not modelled, so two existing files share an inode exactly when their
normalized paths coincide). -/
def pathsMatch (files : List String) (root p1 p2 : String) : Bool :=
  let n1 := normalizePath root p1
  let n2 := normalizePath root p2
  if n1 = n2 then true
  else if stripSrcExt n1 = stripSrcExt n2 then true
  else if (nameNoExt n1 = "index" ∧ dirname n1 = stripSrcExt n2)
       ∨ (nameNoExt n2 = "index" ∧ dirname n2 = stripSrcExt n1) then true
  else if files.contains n1 && files.contains n2 then decide (n1 = n2)
  else false

end Basic

/-- fs.existsSync over the modelled file system (existing files and
existing directories). -/
def existsFs (files dirs : List String) (p : String) : Bool :=
  files.contains p || dirs.contains p

/-- The optimized resolver's extension probe order. -/
def extensionsOpt : List String := [".tsx", ".ts", ".jsx", ".js"]

/-- The basic resolver's extension probe order. -/
def extensionsBasic : List String := [".tsx", ".ts", ".jsx", ".js", ".mjs", ".cjs"]

/-- The implicit-index file names probed inside a directory. -/
def indexFileNames : List String := ["index.tsx", "index.ts", "index.jsx", "index.js"]

namespace Opt

/-- The optimized resolveImportPath: absolute specifiers are normalized;
otherwise resolve against the referencing file's directory, probe the literal
path (expanding a directory to its first existing implicit-index file), then
the extension probes, then the implicit-index probes, and fall back to the
normalized literal path. -/
def resolveImportPath (files dirs : List String) (root importPath sourceFile : String) :
    String :=
  if isAbsolute importPath then normalizePath root importPath
  else
    let resolvedPath := pathResolve (dirname sourceFile) importPath
    if existsFs files dirs resolvedPath then
      if dirs.contains resolvedPath then
        match indexFileNames.findSome? (fun idx =>
          let ip := resolvedPath ++ "/" ++ idx
          if existsFs files dirs ip then some ip else none) with
        | some ip => normalizePath root ip
        | none => normalizePath root resolvedPath
      else normalizePath root resolvedPath
    else
      match extensionsOpt.findSome? (fun ext =>
        let tp := resolvedPath ++ ext
        if existsFs files dirs tp then some tp else none) with
      | some tp => normalizePath root tp
      | none =>
        match indexFileNames.findSome? (fun idx =>
          let ip := resolvedPath ++ "/" ++ idx
          if existsFs files dirs ip then some ip else none) with
        | some ip => normalizePath root ip
        | none => normalizePath root resolvedPath

end Opt

namespace Basic

/-- The basic resolveImportPath: like the optimized one, except that the
implicit-index probe only runs when the literally resolved path exists and is
a directory (the probe for a nonexistent path is dead code in the source), and
two more extensions are probed. -/
def resolveImportPath (files dirs : List String) (root importPath sourceFile : String) :
    String :=
  if isAbsolute importPath then normalizePath root importPath
  else
    let resolvedPath := pathResolve (dirname sourceFile) importPath
    if existsFs files dirs resolvedPath then
      if dirs.contains resolvedPath then
        match indexFileNames.findSome? (fun idx =>
          let ip := resolvedPath ++ "/" ++ idx
          if existsFs files dirs ip then some ip else none) with
        | some ip => normalizePath root ip
        | none => normalizePath root resolvedPath
      else normalizePath root resolvedPath
    else
      match extensionsBasic.findSome? (fun ext =>
        let tp := resolvedPath ++ ext
        if existsFs files dirs tp then some tp else none) with
      | some tp => normalizePath root tp
      | none => normalizePath root resolvedPath

end Basic

/-- Match a literal character sequence, returning the remainder. -/
def dropLit (lit cs : List Char) : Option (List Char) :=
  match lit, cs with
  | [], rest => some rest
  | _ :: _, [] => none
  | l :: ls, c :: rest => if c = l then dropLit ls rest else none

/-- One-or-more whitespace (greedy). -/
def ws1 (cs : List Char) : Option (List Char) :=
  match cs with
  | c :: rest => if wsChar c then some (rest.dropWhile wsChar) else none
  | [] => none

/-- Zero-or-more whitespace (greedy). -/
def ws0 (cs : List Char) : List Char := cs.dropWhile wsChar

/-- One-or-more word characters (greedy). -/
def word1 (cs : List Char) : Option (List Char) :=
  match cs with
  | c :: rest => if wordChar c then some (rest.dropWhile wordChar) else none
  | [] => none

def quoteChar (c : Char) : Bool := c = '\'' || c = '"'

/-- A quoted specifier: a quote, one or more non-quote characters (captured),
a closing quote. Either quote character is accepted on either side, as in the
source character class. -/
def quoteSpec (cs : List Char) : Option (String × List Char) :=
  match cs with
  | c :: rest =>
    if quoteChar c then
      let spec := rest.takeWhile (fun d => !quoteChar d)
      match rest.drop spec.length with
      | d :: rest2 =>
        if quoteChar d && !spec.isEmpty then some (String.mk spec, rest2) else none
      | [] => none
    else none
  | [] => none

/-- Binding alternative: star-as-namespace. -/
def altStar (cs : List Char) : Option (List Char) := do
  let cs ← dropLit ['*'] cs
  let cs ← ws1 cs
  let cs ← dropLit ['a', 's'] cs
  let cs ← ws1 cs
  word1 cs

/-- Binding alternative: named-brace group. -/
def altBrace (cs : List Char) : Option (List Char) := do
  let cs ← dropLit ['\x7b'] cs
  let cs := cs.dropWhile (fun c => c ≠ '\x7d')
  dropLit ['\x7d'] cs

/-- Binding alternative: bare default identifier. -/
def altWord (cs : List Char) : Option (List Char) := word1 cs

/-- Binding alternative: default identifier plus named-brace group. -/
def altWordBrace (cs : List Char) : Option (List Char) := do
  let cs ← word1 cs
  let cs := ws0 cs
  let cs ← dropLit [','] cs
  let cs := ws0 cs
  altBrace cs

/-- Binding alternative: default identifier plus star-as-namespace
(present only in the basic extractor's pattern). -/
def altWordStar (cs : List Char) : Option (List Char) := do
  let cs ← word1 cs
  let cs := ws0 cs
  let cs ← dropLit [','] cs
  let cs := ws0 cs
  altStar cs

/-- The from-clause tail shared by all static-import alternatives. -/
def fromClause (cs : List Char) : Option (String × List Char) := do
  let cs ← ws1 cs
  let cs ← dropLit ['f', 'r', 'o', 'm'] cs
  let cs ← ws1 cs
  quoteSpec cs

/-- Match a static import-from statement starting at the head of the list,
with the alternatives tried in the source pattern's order. The extra
default-plus-star alternative is enabled only for the basic extractor. -/
def es6MatchAt (withDefaultStar : Bool) (cs : List Char) : Option (String × List Char) := do
  let cs0 ← dropLit "import".data cs
  let cs1 ← ws1 cs0
  let alts := [altStar, altBrace, altWord, altWordBrace]
    ++ (if withDefaultStar then [altWordStar] else [])
  alts.findSome? (fun alt => (alt cs1).bind fromClause)

/-- Match a dynamic import call starting at the head of the list. -/
def dynCore (cs : List Char) : Option (String × List Char) := do
  let cs ← dropLit "import".data cs
  let cs := ws0 cs
  let cs ← dropLit ['('] cs
  let cs := ws0 cs
  let (spec, cs) ← quoteSpec cs
  let cs := ws0 cs
  let cs ← dropLit [')'] cs
  pure (spec, cs)

/-- Dynamic import with an optional await-style keyword before it (the
optional group is tried first, as the regex engine does). -/
def dynMatchAt (allowAwait : Bool) (cs : List Char) : Option (String × List Char) :=
  if allowAwait then
    match (do
      let cs2 ← dropLit "await".data cs
      let cs2 ← ws1 cs2
      dynCore cs2) with
    | some r => some r
    | none => dynCore cs
  else dynCore cs

/-- Match a CommonJS require call starting at the head of the list. -/
def requireMatchAt (cs : List Char) : Option (String × List Char) := do
  let cs ← dropLit "require".data cs
  let cs := ws0 cs
  let cs ← dropLit ['('] cs
  let cs := ws0 cs
  let (spec, cs) ← quoteSpec cs
  let cs := ws0 cs
  let cs ← dropLit [')'] cs
  pure (spec, cs)

/-- Match a require.resolve call starting at the head of the list. -/
def requireResolveMatchAt (cs : List Char) : Option (String × List Char) := do
  let cs ← dropLit "require.resolve".data cs
  let cs := ws0 cs
  let cs ← dropLit ['('] cs
  let cs := ws0 cs
  let (spec, cs) ← quoteSpec cs
  let cs := ws0 cs
  let cs ← dropLit [')'] cs
  pure (spec, cs)

/-- The global exec loop: find matches left to right, resuming after the end
of each match, collecting the captured specifiers in order. -/
def scanAux (matchAt : List Char → Option (String × List Char)) :
    Nat → List Char → List String
  | 0, _ => []
  | _ + 1, [] => []
  | fuel + 1, c :: cs =>
    match matchAt (c :: cs) with
    | some (spec, rest) => spec :: scanAux matchAt fuel rest
    | none => scanAux matchAt fuel cs

def scanMatches (matchAt : List Char → Option (String × List Char))
    (content : String) : List String :=
  scanAux matchAt (content.data.length + 1) content.data

/-- The basic analyzer's external-module test: relative and absolute
specifiers are local, scoped packages and built-in modules are external, and
anything else is external unless it contains a dot-slash somewhere. -/
def builtInModules : List String :=
  ["fs", "path", "os", "http", "https", "url", "util", "crypto",
   "stream", "events", "buffer", "child_process", "cluster", "dgram",
   "dns", "net", "readline", "repl", "tls", "tty", "vm", "zlib",
   "assert", "console", "module", "process", "querystring", "string_decoder",
   "timers", "v8", "worker_threads"]

def isExternalModule (importPath : String) : Bool :=
  if startsW importPath "." || startsW importPath "/" then false
  else if startsW importPath "@" then true
  else if builtInModules.contains (String.mk (importPath.data.takeWhile (fun c => c ≠ '/')))
    then true
  else !jsIncludes importPath "./" && !jsIncludes importPath "../"

namespace Opt

/-- The optimized analyzer's local-module test. -/
def isLocalModule (importPath : String) : Bool :=
  startsW importPath "." || startsW importPath "/"

/-- The optimized extractImportsFast: empty content yields no references; the
static, dynamic (without await) and require scans run, keeping local
specifiers only. The require.resolve scan of the basic extractor is absent. -/
def extractImportsFast (filePath content : String) : List FileImport :=
  if content = "" then []
  else
    ((scanMatches (es6MatchAt false) content).filter (fun p => isLocalModule p)).map
      (fun p => { importPath := p, isDynamic := false, sourceFile := filePath })
    ++ ((scanMatches (dynMatchAt false) content).filter (fun p => isLocalModule p)).map
      (fun p => { importPath := p, isDynamic := true, sourceFile := filePath })
    ++ ((scanMatches requireMatchAt content).filter (fun p => isLocalModule p)).map
      (fun p => { importPath := p, isDynamic := false, sourceFile := filePath })

end Opt

namespace Basic

/-- The basic extractImports: the four scans (static with the extra
default-plus-star alternative, dynamic with optional await, require,
require.resolve) run in order, keeping non-external specifiers. -/
def extractImports (filePath content : String) : List FileImport :=
  ((scanMatches (es6MatchAt true) content).filter (fun p => !isExternalModule p)).map
    (fun p => { importPath := p, isDynamic := false, sourceFile := filePath })
  ++ ((scanMatches (dynMatchAt true) content).filter (fun p => !isExternalModule p)).map
    (fun p => { importPath := p, isDynamic := true, sourceFile := filePath })
  ++ ((scanMatches requireMatchAt content).filter (fun p => !isExternalModule p)).map
    (fun p => { importPath := p, isDynamic := false, sourceFile := filePath })
  ++ ((scanMatches requireResolveMatchAt content).filter (fun p => !isExternalModule p)).map
    (fun p => { importPath := p, isDynamic := true, sourceFile := filePath })

end Basic

/-- JS object write that creates the key if missing and appends the value to
its list if not already included (the optimized graph-building push). -/
def graphAdd : Graph → String → String → Graph
  | [], k, v => [(k, [v])]
  | (k', vs) :: rest, k, v =>
    if k' = k then (k', if v ∈ vs then vs else vs ++ [v]) :: rest
    else (k', vs) :: graphAdd rest k v

/-- JS object write that overwrites the key's value (the basic graph build). -/
def graphSet : Graph → String → List String → Graph
  | [], k, v => [(k, v)]
  | (k', v') :: rest, k, v =>
    if k' = k then (k', v) :: rest else (k', v') :: graphSet rest k v

/-- JS Map.set: overwrite in place, or append a new key. -/
def upsert : List (String × String) → String → String → List (String × String)
  | [], k, v => [(k, v)]
  | (k', v') :: rest, k, v =>
    if k' = k then (k', v) :: rest else (k', v') :: upsert rest k v

/-- The optimized analyzer's final loop: give every component path an entry,
empty when none was created by the matching pass. -/
def ensureEntries (g : Graph) (componentPaths : List String) : Graph :=
  componentPaths.foldl (fun g' p =>
    match lookupG g' p with
    | none => g' ++ [(p, [])]
    | some _ => g') g

/-- Collect per-file import lists, keeping only files with at least one
reference (the fileImports map, in file order). -/
def collectFileImports (extract : String → String → List FileImport)
    (contents : List (String × String)) (allProjectFiles : List String) :
    List (String × List FileImport) :=
  allProjectFiles.foldl (fun acc fp =>
    let imps := extract fp ((lookupC contents fp).getD "")
    if imps.isEmpty then acc else acc ++ [(fp, imps)]) []

/-- The normalized-path map of component paths (JS Map insertion order,
later duplicates overwriting in place). -/
def normalizeComponentPaths (root : String) (componentPaths : List String) :
    List (String × String) :=
  componentPaths.foldl (fun m cp => upsert m (normalizePath root cp) cp) []

namespace Opt

/-- One resolved import checked against every component: each match adds the
referencing file to that component's dependent list (deduplicated). -/
def addMatches (root : String) (ncps : List (String × String)) (fp resolvedPath : String)
    (g : Graph) : Graph :=
  ncps.foldl (fun g np =>
    if pathsMatch root resolvedPath np.1 then graphAdd g np.2 fp else g) g

/-- The optimized matching pass over all file imports. -/
def buildGraph (files dirs : List String) (root : String)
    (ncps : List (String × String)) (fileImports : List (String × List FileImport)) :
    Graph :=
  fileImports.foldl (fun g fpImps =>
    fpImps.2.foldl (fun g imp =>
      addMatches root ncps fpImps.1
        (resolveImportPath files dirs root imp.importPath fpImps.1) g) g) []

/-- The optimized analyzeImports: extract imports from every project file,
build the normalized-path map of components, add each matching file to the
matched component's dependent list (deduplicated), then backfill an empty
entry for every component without one. -/
def analyzeImports (files dirs : List String) (root : String)
    (contents : List (String × String)) (allProjectFiles componentPaths : List String) :
    Graph :=
  ensureEntries
    (buildGraph files dirs root (normalizeComponentPaths root componentPaths)
      (collectFileImports extractImportsFast contents allProjectFiles))
    componentPaths

end Opt

namespace Basic

/-- The basic analyzeImports: for each component in order, collect every file
whose resolved imports match it (one entry per matching import, without
deduplication), and store the list, empty when nothing matched. -/
def analyzeImports (files dirs : List String) (root : String)
    (contents : List (String × String)) (allProjectFiles componentPaths : List String) :
    Graph :=
  let fileImports := collectFileImports extractImports contents allProjectFiles
  componentPaths.foldl (fun g cp =>
    let ncp := normalizePath root cp
    let importingFiles := fileImports.foldl (fun acc fpImps =>
      fpImps.2.foldl (fun acc imp =>
        if pathsMatch files root
            (resolveImportPath files dirs root imp.importPath fpImps.1) ncp
        then acc ++ [fpImps.1] else acc) acc) []
    graphSet g cp importingFiles) []

end Basic

/-- findUnused: every component whose graph entry is missing or empty,
in component order (a pure read of the graph). -/
def findUnused (g : Graph) (componentPaths : List String) : List String :=
  componentPaths.foldl (fun unused cp =>
    match lookupG g cp with
    | none => unused ++ [cp]
    | some l => if l.length = 0 then unused ++ [cp] else unused) []

end Analyzer

namespace Safety

/-- The safety verdict for one component. -/
structure SafetyCheckResult where
  isSafe : Bool
  warnings : List String
  dependents : List String
  recommendations : List String
deriving DecidableEq, Repr

/-- Character at a position, with a non-word default out of range. -/
def getC (cs : List Char) (i : Nat) : Char := cs.getD i ' '

/-- A word boundary at position j of the character list: exactly one of the
neighbouring characters is a word character (positions outside the string
count as non-word). -/
def boundaryAt (cs : List Char) (j : Nat) : Bool :=
  let before := if j = 0 then false else wordChar (getC cs (j - 1))
  let after := if j < cs.length then wordChar (getC cs j) else false
  before != after

/-- Can the gap between the whitespace-plus and the dot-star of the export
pattern be split: at least one leading whitespace character, and no newline
after the maximal whitespace run (dot does not match a newline). -/
def gapOk (gap : List Char) : Bool :=
  let t := (gap.takeWhile wsChar).length
  decide (1 ≤ t) && (gap.drop t).all (fun c => c ≠ '\n')

/-- The case-insensitive test of the export-statement pattern: the word
export, one or more whitespace characters, any non-newline characters, then
the search pattern between word boundaries. -/
def exportRegexTest (content pat : String) : Bool :=
  let cs := content.data.map Char.toLower
  let p := pat.data.map Char.toLower
  let n := cs.length
  (List.range n).any (fun i =>
    listStartsWith "export".data (cs.drop i) &&
    (let k := i + 6
     decide (k < n) && wsChar (getC cs k) &&
     (List.range (n + 1)).any (fun j =>
        decide (k + 1 ≤ j) && decide (j + p.length ≤ n) &&
        boundaryAt cs j && listStartsWith p (cs.drop j) &&
        boundaryAt cs (j + p.length) &&
        gapOk ((cs.drop k).take (j - k)))))

/-- The safety checker's toPascalCase (no index sentinel, no extension
stripping). -/
def toPascalCase (str : String) : String := pascalCore str

/-- extractComponentName: the file name without extension, or the parent
directory's name for an index file, converted to PascalCase. -/
def extractComponentName (componentPath : String) : String :=
  let fileName := nameNoExt componentPath
  if fileName = "index" then toPascalCase (basenameStr (dirname componentPath))
  else toPascalCase fileName

/-- isTestFile: test or spec markers in the directory path or the file name. -/
def isTestFile (filePath : String) : Bool :=
  let fileName := String.mk ((basenameStr filePath).data.map Char.toLower)
  let dirPath := String.mk ((dirname filePath).data.map Char.toLower)
  jsIncludes dirPath "test" || jsIncludes dirPath "__tests__" ||
  jsIncludes dirPath "spec" || jsIncludes fileName ".test." ||
  jsIncludes fileName ".spec."

/-- Drop the common leading segments of two segment lists. -/
def dropCommon : List String → List String → List String × List String
  | a :: restA, b :: restB =>
    if a = b then dropCommon restA restB else (a :: restA, b :: restB)
  | restA, restB => (restA, restB)

/-- Node path.relative in the POSIX model. -/
def relativePath (root filePath : String) : String :=
  let segs := fun (p : String) =>
    ((splitSlash (pathResolve "/" p).data).filter (fun s => s ≠ [])).map String.mk
  let (ups, rest) := dropCommon (segs root) (segs filePath)
  String.intercalate "/" (ups.map (fun _ => "..") ++ rest)

/-- First-occurrence deduplication (JS spread of a Set). -/
def dedupAux (seen : List String) : List String → List String
  | [] => []
  | x :: xs => if x ∈ seen then dedupAux seen xs else x :: dedupAux (x :: seen) xs

def dedupFirst (l : List String) : List String := dedupAux [] l

/-- checkIndexExportsFast: among the cached index files, keep those in a
different directory than the component whose content (empty on a read
failure, which is skipped) passes the quick substring check and then the
export-statement pattern for the component name or the raw file name. -/
def checkIndexExportsFast (componentPath componentName : String)
    (cachedIndexFiles : List String) (contents : List (String × String)) : List String :=
  let fileName := nameNoExt componentPath
  let searchPatterns := [componentName, fileName]
  cachedIndexFiles.filter (fun indexFile =>
    if dirname indexFile = dirname componentPath then false
    else
      let content := (Analyzer.lookupC contents indexFile).getD ""
      if content = "" then false
      else if searchPatterns.any (fun p => jsIncludes content p) then
        searchPatterns.any (fun p => exportRegexTest content p)
      else false)

/-- The body of checkSafeDeletion up to the return statement: direct
dependents read from the graph and split into test and non-test files,
index-export check, verdict composition. -/
def checkSafeDeletionOk (componentPath : String) (dependencyGraph : Analyzer.Graph)
    (cachedIndexFiles : List String) (contents : List (String × String))
    (projectRoot : String) : SafetyCheckResult :=
  let componentName := extractComponentName componentPath
  let directDependents := (Analyzer.lookupG dependencyGraph componentPath).getD []
  let testFiles := directDependents.filter (fun f => isTestFile f)
  let nonTestFiles := directDependents.filter (fun f => !isTestFile f)
  let warnings1 : List String :=
    if directDependents.length > 0 then
      (if nonTestFiles.length > 0 then
        ["Component \"" ++ componentName ++ "\" is directly imported by "
          ++ toString nonTestFiles.length ++ " file(s):"]
        ++ (nonTestFiles.take 5).map (fun f => "  - " ++ relativePath projectRoot f)
        ++ (if nonTestFiles.length > 5 then
             ["  ... and " ++ toString (nonTestFiles.length - 5) ++ " more"]
           else [])
       else [])
      ++ (if testFiles.length > 0 then
           ["Component has " ++ toString testFiles.length ++ " test file(s) that import it"]
         else [])
    else []
  let recs1 : List String :=
    if directDependents.length > 0 then
      (if nonTestFiles.length > 0 then
        ["Remove imports from " ++ toString nonTestFiles.length ++ " file(s) before deleting"]
       else [])
      ++ (if testFiles.length > 0 then
           ["Consider updating or removing " ++ toString testFiles.length ++ " test file(s)"]
         else [])
    else []
  let indexExports := checkIndexExportsFast componentPath componentName cachedIndexFiles contents
  let warnings2 := warnings1 ++
    (if indexExports.length > 0 then
      ["Component is exported from " ++ toString indexExports.length ++ " index file(s)"]
     else [])
  let recs2 := recs1 ++
    (if indexExports.length > 0 then ["Remove exports from index files before deleting"]
     else [])
  let isSafe := decide (directDependents.length = 0) && decide (indexExports.length = 0)
  let recs3 :=
    if isSafe then recs2 ++ ["Component appears safe to delete"]
    else "Review all warnings before deleting this component" :: recs2
  { isSafe := isSafe
    warnings := warnings2
    dependents := dedupFirst directDependents
    recommendations := recs3 }

/-- The surrounding try-catch frame: a normal body result is returned as is;
an exception is converted into an unsafe verdict carrying the warnings,
dependents and recommendations accumulated so far plus a diagnostic warning
and recommendation. The exception never escapes. -/
def checkSafeDeletionRun (warnings dependents recommendations : List String) :
    Except String SafetyCheckResult → SafetyCheckResult
  | .ok r => r
  | .error msg =>
    { isSafe := false
      warnings := warnings ++ ["Error during safety check: " ++ msg]
      dependents := dependents
      recommendations := recommendations ++ ["Review the error and try again"] }

/-- checkSafeDeletion: the body under the try-catch frame. In the pure model
the body always succeeds; the frame's error path is exercised separately. -/
def checkSafeDeletion (componentPath : String) (dependencyGraph : Analyzer.Graph)
    (cachedIndexFiles : List String) (contents : List (String × String))
    (projectRoot : String) : SafetyCheckResult :=
  checkSafeDeletionRun [] [] []
    (.ok (checkSafeDeletionOk componentPath dependencyGraph cachedIndexFiles contents
      projectRoot))

end Safety

/-- A file exercising all four recognized specifier shapes. -/
def sampleAllShapes : String :=
  "import A from './a'\nimport \x7b B \x7d from './b'\nimport * as C from './c'\nimport D, \x7b E \x7d from './d'\nconst p = await import('./e')\nconst q = require('./f')\nconst r = require.resolve('./g')\n"

/-- Re-export scenario: the unit is unused in the graph. -/
def reexportGraph : Analyzer.Graph := [("/proj/A.tsx", [])]

/-- Re-export scenario: one aggregator index file in another directory. -/
def reexportIndexFiles : List String := ["/proj/components/index.ts"]

/-- Re-export scenario: the aggregator re-exports the unit. -/
def reexportContents : List (String × String) :=
  [("/proj/components/index.ts", "export * from './A'")]

/-- Re-export scenario: the verdict for the unused, re-exported unit. -/
def reexportVerdict : Safety.SafetyCheckResult :=
  Safety.checkSafeDeletion "/proj/A.tsx" reexportGraph reexportIndexFiles
    reexportContents "/proj"

namespace Analyzer

theorem lookupG_append_some {g : Graph} {p : String} {v : List String}
    (h : lookupG g p = some v) (g' : Graph) : lookupG (g ++ g') p = some v := by
  induction g with
  | nil => simp [lookupG] at h
  | cons kv rest ih =>
    obtain ⟨k, vs⟩ := kv
    by_cases hk : k = p
    · simp_all [lookupG]
    · simp_all [lookupG]

theorem lookupG_append_none {g : Graph} {p : String}
    (h : lookupG g p = none) (g' : Graph) : lookupG (g ++ g') p = lookupG g' p := by
  induction g with
  | nil => simp [lookupG]
  | cons kv rest ih =>
    obtain ⟨k, vs⟩ := kv
    by_cases hk : k = p
    · simp_all [lookupG]
    · simp_all [lookupG]

theorem ensureEntries_isSome_of {g : Graph} {p : String}
    (h : (lookupG g p).isSome) (cps : List String) :
    (lookupG (ensureEntries g cps) p).isSome := by
  induction cps generalizing g with
  | nil => simpa [ensureEntries] using h
  | cons q rest ih =>
    have hstep : ensureEntries g (q :: rest)
        = ensureEntries (match lookupG g q with
            | none => g ++ [(q, [])]
            | some _ => g) rest := rfl
    rw [hstep]
    apply ih
    cases hq : lookupG g q with
    | none =>
      obtain ⟨v, hv⟩ := Option.isSome_iff_exists.mp h
      simp only [hq]
      rw [lookupG_append_some hv]
      rfl
    | some vs => simpa [hq] using h

theorem ensureEntries_total {p : String} {cps : List String}
    (hp : p ∈ cps) (g : Graph) :
    (lookupG (ensureEntries g cps) p).isSome := by
  induction cps generalizing g with
  | nil => cases hp
  | cons q rest ih =>
    have hstep : ensureEntries g (q :: rest)
        = ensureEntries (match lookupG g q with
            | none => g ++ [(q, [])]
            | some _ => g) rest := rfl
    rw [hstep]
    rcases List.mem_cons.mp hp with rfl | hmem
    · apply ensureEntries_isSome_of
      cases hq : lookupG g p with
      | none =>
        simp only [hq]
        rw [lookupG_append_none hq]
        simp [lookupG]
      | some vs => simp [hq]
    · exact ih hmem _

theorem findUnused_eq_filter (g : Graph) (cps : List String) :
    findUnused g cps = cps.filter (fun cp => ((lookupG g cp).getD []).isEmpty) := by
  have aux : ∀ (l : List String) (acc : List String),
      l.foldl (fun unused cp => match lookupG g cp with
        | none => unused ++ [cp]
        | some vs => if vs.length = 0 then unused ++ [cp] else unused) acc
      = acc ++ l.filter (fun cp => ((lookupG g cp).getD []).isEmpty) := by
    intro l
    induction l with
    | nil => intro acc; simp
    | cons cp rest ih =>
      intro acc
      simp only [List.foldl_cons]
      rw [ih]
      cases hcp : lookupG g cp with
      | none => simp [hcp, List.filter_cons]
      | some vs =>
        cases vs with
        | nil => simp [hcp, List.filter_cons]
        | cons v vs' => simp [hcp, List.filter_cons]
  simpa [findUnused] using aux cps []

/-- Every dependent list stored in the graph is duplicate-free. -/
def MemNodup (g : Graph) : Prop := ∀ kv ∈ g, (kv.2 : List String).Nodup

theorem lookupG_mem {g : Graph} {p : String} {vs : List String}
    (h : lookupG g p = some vs) : (p, vs) ∈ g := by
  induction g with
  | nil => simp [lookupG] at h
  | cons kv rest ih =>
    obtain ⟨k, v⟩ := kv
    by_cases hk : k = p
    · subst hk
      simp [lookupG] at h
      subst h
      exact List.mem_cons_self _ _
    · simp [lookupG, hk] at h
      exact List.mem_cons_of_mem _ (ih h)

theorem memNodup_nil : MemNodup [] := by
  intro kv hkv
  cases hkv

theorem memNodup_graphAdd {g : Graph} (h : MemNodup g) (k v : String) :
    MemNodup (graphAdd g k v) := by
  induction g with
  | nil =>
    intro kv hkv
    simp [graphAdd] at hkv
    subst hkv
    simp
  | cons kv' rest ih =>
    obtain ⟨k', vs⟩ := kv'
    have hrest : MemNodup rest := fun kv2 h2 => h kv2 (List.mem_cons_of_mem _ h2)
    have hvs : vs.Nodup := h (k', vs) (List.mem_cons_self _ _)
    by_cases hk : k' = k
    · intro kv hkv
      simp only [graphAdd, if_pos hk] at hkv
      rcases List.mem_cons.mp hkv with rfl | hkv
      · by_cases hv : v ∈ vs
        · simpa [hv] using hvs
        · simp only [hv, if_neg]
          simp [List.nodup_append, hvs, hv]
      · exact hrest kv hkv
    · intro kv hkv
      simp only [graphAdd, if_neg hk] at hkv
      rcases List.mem_cons.mp hkv with rfl | hkv
      · exact hvs
      · exact ih hrest kv hkv

theorem memNodup_foldl {β : Type} (f : Graph → β → Graph)
    (hf : ∀ g b, MemNodup g → MemNodup (f g b)) :
    ∀ (l : List β) (g : Graph), MemNodup g → MemNodup (l.foldl f g) := by
  intro l
  induction l with
  | nil => intro g hg; simpa
  | cons b rest ih =>
    intro g hg
    simp only [List.foldl_cons]
    exact ih _ (hf g b hg)

theorem memNodup_addMatches (root : String) (ncps : List (String × String))
    (fp rp : String) {g : Graph} (h : MemNodup g) :
    MemNodup (Opt.addMatches root ncps fp rp g) := by
  unfold Opt.addMatches
  apply memNodup_foldl _ _ _ _ h
  intro g' np hg'
  by_cases hm : Opt.pathsMatch root rp np.1
  · simpa [hm] using memNodup_graphAdd hg' np.2 fp
  · simpa [hm] using hg'

theorem memNodup_buildGraph (files dirs : List String) (root : String)
    (ncps : List (String × String)) (fileImports : List (String × List FileImport)) :
    MemNodup (Opt.buildGraph files dirs root ncps fileImports) := by
  unfold Opt.buildGraph
  apply memNodup_foldl _ _ _ _ memNodup_nil
  intro g fpImps hg
  apply memNodup_foldl _ _ _ _ hg
  intro g' imp hg'
  exact memNodup_addMatches _ _ _ _ hg'

theorem memNodup_ensureEntries {g : Graph} (h : MemNodup g) (cps : List String) :
    MemNodup (ensureEntries g cps) := by
  induction cps generalizing g with
  | nil => simpa [ensureEntries] using h
  | cons q rest ih =>
    have hstep : ensureEntries g (q :: rest)
        = ensureEntries (match lookupG g q with
            | none => g ++ [(q, [])]
            | some _ => g) rest := rfl
    rw [hstep]
    apply ih
    cases hq : lookupG g q with
    | none =>
      simp only [hq]
      intro kv hkv
      rcases List.mem_append.mp hkv with hkv | hkv
      · exact h kv hkv
      · simp at hkv
        subst hkv
        simp
    | some vs => simpa [hq] using h

theorem extractImports_not_external {fp content : String} {imp : FileImport}
    (h : imp ∈ Basic.extractImports fp content) :
    isExternalModule imp.importPath = false := by
  unfold Basic.extractImports at h
  simp only [List.mem_append, List.mem_map, List.mem_filter] at h
  rcases h with ((⟨p, ⟨_, hf⟩, rfl⟩ | ⟨p, ⟨_, hf⟩, rfl⟩) | ⟨p, ⟨_, hf⟩, rfl⟩) |
    ⟨p, ⟨_, hf⟩, rfl⟩ <;> simpa using hf

theorem extractImportsFast_local {fp content : String} {imp : FileImport}
    (h : imp ∈ Opt.extractImportsFast fp content) :
    Opt.isLocalModule imp.importPath = true := by
  unfold Opt.extractImportsFast at h
  by_cases hc : content = ""
  · simp [hc] at h
  · simp only [if_neg hc, List.mem_append, List.mem_map, List.mem_filter] at h
    rcases h with (⟨p, ⟨_, hf⟩, rfl⟩ | ⟨p, ⟨_, hf⟩, rfl⟩) | ⟨p, ⟨_, hf⟩, rfl⟩ <;>
      simpa using hf

theorem Opt.pathsMatch_refl (root a : String) : Opt.pathsMatch root a a = true := by
  unfold Opt.pathsMatch
  rw [if_pos rfl]

theorem Opt.pathsMatch_symm (root a b : String) :
    Opt.pathsMatch root a b = Opt.pathsMatch root b a := by
  unfold Opt.pathsMatch
  by_cases h1 : normalizePath root a = normalizePath root b
  · rw [if_pos h1, if_pos h1.symm]
  · have h1' : ¬ normalizePath root b = normalizePath root a := fun h => h1 h.symm
    simp only [if_neg h1, if_neg h1']
    by_cases h2 : stripSrcExt (normalizePath root a) = stripSrcExt (normalizePath root b)
    · rw [if_pos h2, if_pos h2.symm]
    · have h2' : ¬ stripSrcExt (normalizePath root b) = stripSrcExt (normalizePath root a) :=
        fun h => h2 h.symm
      simp only [if_neg h2, if_neg h2']
      by_cases h3 : (nameNoExt (normalizePath root a) = "index" ∧
          dirname (normalizePath root a) = stripSrcExt (normalizePath root b))
        ∨ (nameNoExt (normalizePath root b) = "index" ∧
          dirname (normalizePath root b) = stripSrcExt (normalizePath root a))
      · simp only [if_pos h3, if_pos (Or.symm h3)]
      · have h3' := fun h => h3 (Or.symm h)
        simp only [if_neg h3, if_neg h3']

theorem Opt.pathsMatch_of_stripExt_eq (root a b : String)
    (h : stripSrcExt (normalizePath root a) = stripSrcExt (normalizePath root b)) :
    Opt.pathsMatch root a b = true := by
  unfold Opt.pathsMatch
  by_cases h1 : normalizePath root a = normalizePath root b
  · rw [if_pos h1]
  · rw [if_neg h1, if_pos h]

theorem Opt.pathsMatch_of_index (root a b : String)
    (hi : nameNoExt (normalizePath root a) = "index")
    (hd : dirname (normalizePath root a) = stripSrcExt (normalizePath root b)) :
    Opt.pathsMatch root a b = true := by
  unfold Opt.pathsMatch
  by_cases h1 : normalizePath root a = normalizePath root b
  · rw [if_pos h1]
  · rw [if_neg h1]
    by_cases h2 : stripSrcExt (normalizePath root a) = stripSrcExt (normalizePath root b)
    · rw [if_pos h2]
    · rw [if_neg h2, if_pos (Or.inl ⟨hi, hd⟩)]

end Analyzer

/-- Claim C1: for every component path and dependency graph, the verdict's
isSafe field is true only when the component has zero direct non-test
dependents in the graph; there is no indirect-mention checking in this
implementation variant, and the re-export (index-export) signal is folded
into the safety boolean, which must therefore also be empty. -/
theorem checkSafeDeletion_isSafe_only_if
    (cp root : String) (g : Analyzer.Graph) (idx : List String)
    (contents : List (String × String))
    (h : (Safety.checkSafeDeletion cp g idx contents root).isSafe = true) :
    ((Analyzer.lookupG g cp).getD []).filter (fun f => !Safety.isTestFile f) = []
    ∧ Safety.checkIndexExportsFast cp (Safety.extractComponentName cp) idx contents = [] := by
  simp only [Safety.checkSafeDeletion, Safety.checkSafeDeletionRun,
    Safety.checkSafeDeletionOk] at h
  simp only [Bool.and_eq_true, decide_eq_true_eq] at h
  obtain ⟨h1, h2⟩ := h
  rw [List.length_eq_zero.mp h1, List.length_eq_zero.mp h2]
  simp

/-- Witness for claim C1 at a concrete safe input. -/
theorem checkSafeDeletion_isSafe_only_if_witness :
    (Safety.checkSafeDeletion "/p/A.tsx" [("/p/A.tsx", [])] [] [] "/p").isSafe = true
    ∧ (((Analyzer.lookupG [("/p/A.tsx", [])] "/p/A.tsx").getD []).filter
        (fun f => !Safety.isTestFile f) = []
      ∧ Safety.checkIndexExportsFast "/p/A.tsx"
          (Safety.extractComponentName "/p/A.tsx") [] [] = []) :=
  ⟨by decide,
   checkSafeDeletion_isSafe_only_if "/p/A.tsx" "/p" [("/p/A.tsx", [])] [] [] (by decide)⟩

/-- Claim C2: after the optimized analyzeImports, every component path of the
input has an entry in the returned graph (possibly empty, never missing), and
findUnused over the same list is exactly the filter keeping the components
whose dependent list is empty — a pure read of the graph. -/
theorem analyzeImports_total_findUnused_pure
    (files dirs : List String) (root : String) (contents : List (String × String))
    (allFiles cps : List String) (p : String) (hp : p ∈ cps) :
    Analyzer.lookupG (Analyzer.Opt.analyzeImports files dirs root contents allFiles cps) p
      ≠ none
    ∧ Analyzer.findUnused (Analyzer.Opt.analyzeImports files dirs root contents allFiles cps)
        cps
      = cps.filter (fun q =>
          ((Analyzer.lookupG
            (Analyzer.Opt.analyzeImports files dirs root contents allFiles cps) q).getD
            []).isEmpty) := by
  constructor
  · have h := Analyzer.ensureEntries_total hp
      (Analyzer.Opt.buildGraph files dirs root
        (Analyzer.normalizeComponentPaths root cps)
        (Analyzer.collectFileImports Analyzer.Opt.extractImportsFast contents allFiles))
    simpa [Analyzer.Opt.analyzeImports, Option.isSome_iff_ne_none] using h
  · exact Analyzer.findUnused_eq_filter _ _

/-- Witness for claim C2 at a concrete input. -/
theorem analyzeImports_total_findUnused_pure_witness :
    ("/proj/A.tsx" ∈ (["/proj/A.tsx"] : List String))
    ∧ (Analyzer.lookupG (Analyzer.Opt.analyzeImports [] [] "/proj" [] [] ["/proj/A.tsx"])
        "/proj/A.tsx" ≠ none
      ∧ Analyzer.findUnused (Analyzer.Opt.analyzeImports [] [] "/proj" [] [] ["/proj/A.tsx"])
          ["/proj/A.tsx"]
        = (["/proj/A.tsx"] : List String).filter (fun q =>
            ((Analyzer.lookupG (Analyzer.Opt.analyzeImports [] [] "/proj" [] []
              ["/proj/A.tsx"]) q).getD []).isEmpty)) :=
  ⟨by decide,
   analyzeImports_total_findUnused_pure [] [] "/proj" [] [] ["/proj/A.tsx"] "/proj/A.tsx"
     (by decide)⟩

/-- Claim C3: the optimized pathsMatch treats paths whose normalized forms
agree after stripping a source extension as equal, and treats an implicit
index file as equal to a path naming its directory; in particular the
specifier dot-slash-Foo resolving to Foo.tsx and the resolved specifier
Foo/index.tsx both match the Unit Foo.tsx, and a directory path matches its
implicit-index file. -/
theorem pathsMatch_resolution_equivalence :
    (∀ root a b, stripSrcExt (normalizePath root a) = stripSrcExt (normalizePath root b) →
      Analyzer.Opt.pathsMatch root a b = true)
    ∧ (∀ root a b, nameNoExt (normalizePath root a) = "index" →
        dirname (normalizePath root a) = stripSrcExt (normalizePath root b) →
        Analyzer.Opt.pathsMatch root a b = true)
    ∧ Analyzer.Opt.resolveImportPath ["/proj/src/Foo.tsx", "/proj/src/App.tsx"]
        ["/proj", "/proj/src"] "/proj" "./Foo" "/proj/src/App.tsx" = "/proj/src/Foo.tsx"
    ∧ Analyzer.Opt.pathsMatch "/proj" "/proj/src/Foo.tsx" "/proj/src/Foo.tsx" = true
    ∧ Analyzer.Opt.pathsMatch "/proj" "/proj/src/Foo/index.tsx" "/proj/src/Foo.tsx" = true
    ∧ Analyzer.Opt.pathsMatch "/proj" "/proj/src/Foo" "/proj/src/Foo/index.tsx" = true :=
  ⟨Analyzer.Opt.pathsMatch_of_stripExt_eq, Analyzer.Opt.pathsMatch_of_index,
   by decide, by decide, by decide, by decide⟩

/-- Witness for claim C3: extension-insensitive equality at a concrete pair. -/
theorem pathsMatch_resolution_equivalence_witness :
    stripSrcExt (normalizePath "/proj" "/proj/src/Foo.tsx")
      = stripSrcExt (normalizePath "/proj" "/proj/src/Foo")
    ∧ Analyzer.Opt.pathsMatch "/proj" "/proj/src/Foo.tsx" "/proj/src/Foo" = true :=
  ⟨by decide,
   pathsMatch_resolution_equivalence.1 "/proj" "/proj/src/Foo.tsx" "/proj/src/Foo"
     (by decide)⟩

/-- Claim C4 counterexample: in the basic analyzer variant, a file holding two
resolved edges into the same Unit (a static and a dynamic import) appears
twice in that Unit's dependent list. -/
theorem analyzeImports_basic_duplicate_dependents :
    Analyzer.lookupG (Analyzer.Basic.analyzeImports ["/proj/A.tsx", "/proj/B.tsx"] ["/proj"]
      "/proj" [("/proj/B.tsx", "import A from './A'\nconst x = import('./A')\n")]
      ["/proj/A.tsx", "/proj/B.tsx"] ["/proj/A.tsx"]) "/proj/A.tsx"
      = some ["/proj/B.tsx", "/proj/B.tsx"]
    ∧ ¬ (["/proj/B.tsx", "/proj/B.tsx"] : List String).Nodup :=
  ⟨by decide, by decide⟩

/-- Claim C4 (amended): in the optimized analyzer variant, every dependent
list in the graph built by analyzeImports contains no duplicates. -/
theorem analyzeImports_opt_dependents_nodup
    (files dirs : List String) (root : String) (contents : List (String × String))
    (allFiles cps : List String) (p : String) (l : List String)
    (h : Analyzer.lookupG (Analyzer.Opt.analyzeImports files dirs root contents allFiles cps)
      p = some l) :
    l.Nodup := by
  have hm : Analyzer.MemNodup
      (Analyzer.Opt.analyzeImports files dirs root contents allFiles cps) := by
    unfold Analyzer.Opt.analyzeImports
    exact Analyzer.memNodup_ensureEntries
      (Analyzer.memNodup_buildGraph _ _ _ _ _) _
  exact hm (p, l) (Analyzer.lookupG_mem h)

/-- Witness for claim C4 at a concrete run of the optimized analyzer. -/
theorem analyzeImports_opt_dependents_nodup_witness :
    Analyzer.lookupG (Analyzer.Opt.analyzeImports ["/proj/A.tsx", "/proj/B.tsx"] ["/proj"]
      "/proj" [("/proj/B.tsx", "import A from './A'\nconst x = import('./A')\n")]
      ["/proj/A.tsx", "/proj/B.tsx"] ["/proj/A.tsx"]) "/proj/A.tsx"
      = some ["/proj/B.tsx"]
    ∧ (["/proj/B.tsx"] : List String).Nodup :=
  ⟨by decide,
   analyzeImports_opt_dependents_nodup ["/proj/A.tsx", "/proj/B.tsx"] ["/proj"] "/proj"
     [("/proj/B.tsx", "import A from './A'\nconst x = import('./A')\n")]
     ["/proj/A.tsx", "/proj/B.tsx"] ["/proj/A.tsx"] "/proj/A.tsx" ["/proj/B.tsx"]
     (by decide)⟩

/-- Claim C5 counterexample: the optimized extractImportsFast produces no
Reference for a require.resolve call with a local specifier, although the
basic extractor does. -/
theorem extractImportsFast_misses_require_resolve :
    Analyzer.Opt.extractImportsFast "/proj/main.tsx" "const r = require.resolve('./g')\n" = []
    ∧ Analyzer.Opt.isLocalModule "./g" = true
    ∧ Analyzer.Basic.extractImports "/proj/main.tsx" "const r = require.resolve('./g')\n"
      = [{ importPath := "./g", isDynamic := true, sourceFile := "/proj/main.tsx" }] :=
  ⟨by decide, by decide, by decide⟩

set_option maxRecDepth 40000 in
/-- Claim C5 (amended): the basic extractImports recognizes all four shapes
(static default, named-brace, namespace-star and combination imports, a
dynamic import with an await-style keyword, require, require.resolve) on a
file exercising each of them; the optimized extractImportsFast recognizes the
first three scans but not require.resolve. -/
theorem extractImports_four_shapes :
    Analyzer.Basic.extractImports "/proj/main.tsx" sampleAllShapes =
      [{ importPath := "./a", isDynamic := false, sourceFile := "/proj/main.tsx" },
       { importPath := "./b", isDynamic := false, sourceFile := "/proj/main.tsx" },
       { importPath := "./c", isDynamic := false, sourceFile := "/proj/main.tsx" },
       { importPath := "./d", isDynamic := false, sourceFile := "/proj/main.tsx" },
       { importPath := "./e", isDynamic := true, sourceFile := "/proj/main.tsx" },
       { importPath := "./f", isDynamic := false, sourceFile := "/proj/main.tsx" },
       { importPath := "./g", isDynamic := true, sourceFile := "/proj/main.tsx" }]
    ∧ Analyzer.Opt.extractImportsFast "/proj/main.tsx" sampleAllShapes =
      [{ importPath := "./a", isDynamic := false, sourceFile := "/proj/main.tsx" },
       { importPath := "./b", isDynamic := false, sourceFile := "/proj/main.tsx" },
       { importPath := "./c", isDynamic := false, sourceFile := "/proj/main.tsx" },
       { importPath := "./d", isDynamic := false, sourceFile := "/proj/main.tsx" },
       { importPath := "./e", isDynamic := true, sourceFile := "/proj/main.tsx" },
       { importPath := "./f", isDynamic := false, sourceFile := "/proj/main.tsx" }] :=
  ⟨by decide, by decide⟩

/-- Claim C6 counterexample: in the re-export scenario the verdict is unsafe,
but its only warning reports the count of index files and does not name the
index file. -/
theorem checkSafeDeletion_warning_omits_index_name :
    reexportVerdict.isSafe = false
    ∧ reexportVerdict.warnings = ["Component is exported from 1 index file(s)"]
    ∧ jsIncludes "Component is exported from 1 index file(s)"
        "/proj/components/index.ts" = false
    ∧ jsIncludes "Component is exported from 1 index file(s)" "index.ts" = false :=
  ⟨by decide, by decide, by decide, by decide⟩

/-- Claim C6 (amended): for a Unit unused in the graph but re-exported from an
aggregator index file in a different directory, the verdict has isSafe false
and a warning reporting the number of index files exporting it (the file is
not named); aggregator files in the Unit's own directory are never considered
by the index-export check. -/
theorem checkSafeDeletion_reexport_unsafe :
    (reexportVerdict.isSafe = false
     ∧ reexportVerdict.warnings = ["Component is exported from 1 index file(s)"])
    ∧ ∀ (cp name : String) (idx : List String) (contents : List (String × String))
        (f : String), f ∈ Safety.checkIndexExportsFast cp name idx contents →
          dirname f ≠ dirname cp := by
  constructor
  · exact ⟨by decide, by decide⟩
  · intro cp name idx contents f h
    unfold Safety.checkIndexExportsFast at h
    simp only [List.mem_filter] at h
    obtain ⟨_, hpred⟩ := h
    by_cases hd : dirname f = dirname cp
    · simp [hd] at hpred
    · exact hd

/-- Witness for claim C6: the scenario's index file is reported and lies in a
different directory than the Unit. -/
theorem checkSafeDeletion_reexport_unsafe_witness :
    "/proj/components/index.ts" ∈ Safety.checkIndexExportsFast "/proj/A.tsx" "A"
      reexportIndexFiles reexportContents
    ∧ dirname "/proj/components/index.ts" ≠ dirname "/proj/A.tsx" :=
  ⟨by decide,
   checkSafeDeletion_reexport_unsafe.2 "/proj/A.tsx" "A" reexportIndexFiles
     reexportContents "/proj/components/index.ts" (by decide)⟩

/-- Claim C7: on every exceptional run the try-catch frame of
checkSafeDeletion returns a verdict (it never rethrows) whose isSafe is
false, whose warnings end with a diagnostic describing the error, and whose
recommendations end with the retry hint. -/
theorem checkSafeDeletionRun_error_unsafe (msg : String) (w d r : List String) :
    (Safety.checkSafeDeletionRun w d r (.error msg)).isSafe = false
    ∧ ("Error during safety check: " ++ msg)
        ∈ (Safety.checkSafeDeletionRun w d r (.error msg)).warnings
    ∧ (Safety.checkSafeDeletionRun w d r (.error msg)).warnings
        = w ++ ["Error during safety check: " ++ msg]
    ∧ (Safety.checkSafeDeletionRun w d r (.error msg)).recommendations
        = r ++ ["Review the error and try again"] := by
  refine ⟨rfl, ?_, rfl, rfl⟩
  simp [Safety.checkSafeDeletionRun]

/-- Claim C8: the display-name derivation satisfies the four reference
examples of the specification. -/
theorem toPascalCase_reference_examples :
    Scanner.toPascalCase "user-profile.jsx" = "UserProfile"
    ∧ Scanner.toPascalCase "userProfile.tsx" = "UserProfile"
    ∧ Scanner.toPascalCase "user_profile.js" = "UserProfile"
    ∧ Scanner.toPascalCase "index.tsx" = "Index" :=
  ⟨by decide, by decide, by decide, by decide⟩

/-- Claim C9 counterexample: the basic extractor retains the specifier
foo/./bar, which begins with neither a dot nor a slash, so not only
dot-or-slash-initial specifiers can reach the resolver in that variant. -/
theorem extractImports_keeps_nonrelative_specifier :
    Analyzer.Basic.extractImports "/p/m.ts" "import x from 'foo/./bar'"
      = [{ importPath := "foo/./bar", isDynamic := false, sourceFile := "/p/m.ts" }]
    ∧ Analyzer.Opt.isLocalModule "foo/./bar" = false :=
  ⟨by decide, by decide⟩

/-- Claim C9 (amended): a specifier equal to react or of scoped-package form
never produces a Reference in either extractor; in the optimized variant only
specifiers beginning with a dot or a slash are kept, while the basic variant
keeps exactly the non-external specifiers, which can include non-relative
paths containing a dot-slash segment. -/
theorem extraction_excludes_external_modules :
    (∀ (fp content : String) (imp : Analyzer.FileImport),
        imp ∈ Analyzer.Basic.extractImports fp content →
        Analyzer.isExternalModule imp.importPath = false)
    ∧ (∀ (fp content : String) (imp : Analyzer.FileImport),
        imp ∈ Analyzer.Opt.extractImportsFast fp content →
        Analyzer.Opt.isLocalModule imp.importPath = true)
    ∧ Analyzer.isExternalModule "react" = true
    ∧ Analyzer.isExternalModule "@scope/pkg" = true
    ∧ Analyzer.Opt.isLocalModule "react" = false
    ∧ Analyzer.Opt.isLocalModule "@scope/pkg" = false :=
  ⟨fun _ _ _ h => Analyzer.extractImports_not_external h,
   fun _ _ _ h => Analyzer.extractImportsFast_local h,
   by decide, by decide, by decide, by decide⟩

/-- Witness for claim C9 at a concrete extraction. -/
theorem extraction_excludes_external_modules_witness :
    ({ importPath := "./a", isDynamic := false, sourceFile := "/p/m.ts" } : Analyzer.FileImport)
      ∈ Analyzer.Basic.extractImports "/p/m.ts" "import A from './a'"
    ∧ Analyzer.isExternalModule "./a" = false :=
  ⟨by decide,
   extraction_excludes_external_modules.1 "/p/m.ts" "import A from './a'"
     { importPath := "./a", isDynamic := false, sourceFile := "/p/m.ts" } (by decide)⟩

/-- Claim C10: the optimized pathsMatch is reflexive and symmetric. -/
theorem pathsMatch_refl_and_symm (root a b : String) :
    Analyzer.Opt.pathsMatch root a a = true
    ∧ Analyzer.Opt.pathsMatch root a b = Analyzer.Opt.pathsMatch root b a :=
  ⟨Analyzer.Opt.pathsMatch_refl root a, Analyzer.Opt.pathsMatch_symm root a b⟩

end UCD
